import Mathlib

/-!
Verification of the Todo domain entity, the in-memory Todo repository and the
string-keyed dependency invokers of the clean-todolist repository.

The embedding is shallow:
* `Todo` mirrors `domain/entities/Todo.ts`; the mutating methods become
  state-passing functions taking the current time (`new Date()`) as an explicit
  `now : Nat` argument (timestamps are modelled as naturals, milliseconds) and
  returning the possibly-thrown error together with the resulting entity, the
  original entity when the method throws before mutating.
* The repository store mirrors a JavaScript `Map<string, Todo>`: an
  insertion-ordered association list where `set` on a present key updates the
  value in place and on an absent key appends, `delete` removes the entry,
  and `values()` yields values in that order (`jsHas`/`jsGet`/`jsSet`/
  `jsDelete` below).
* `InMemoryTodoRepository` mirrors the implementation in
  `infrastructure/repositories/InMemoryTodoRepository.ts`; the `async`
  wrappers are dropped since every operation completes synchronously, and the
  failing operations return the error together with the untouched store.
* The three invokers (`ServiceInvoker`, `RepositoryInvoker`, `LogicInvoker`)
  are textually identical up to renaming; they are embedded once as `Invoker`
  over a type `JSVal` of JavaScript runtime values, because the lookup guard
  `if (!v)` tests the truthiness of the looked-up value, not key presence.
-/

namespace CleanTodolist

/-- JavaScript `String.prototype.trim()`: removes leading and trailing
whitespace.  (Implemented over the character list so that it evaluates by
kernel reduction; `String.trim` of the Lean library is semantically the
same but built on byte positions.) -/
def jsTrim (s : String) : String :=
  ⟨((s.data.dropWhile Char.isWhitespace).reverse.dropWhile
      Char.isWhitespace).reverse⟩

/-- `TodoStatus` from `domain/types/TodoStatus.ts`: `'pending' | 'completed'`. -/
inductive TodoStatus where
  | pending
  | completed
deriving DecidableEq, Repr

/-- The `Todo` entity from `domain/entities/Todo.ts`.  The constructor performs
no validation, exactly as in the source. -/
structure Todo where
  id : String
  title : String
  description : String
  status : TodoStatus
  createdAt : Nat
  updatedAt : Nat
deriving DecidableEq, Repr

namespace Todo

/-- `canBeCompleted()`: status is pending and the trimmed title is non-empty. -/
def canBeCompleted (t : Todo) : Bool :=
  t.status == .pending && (jsTrim t.title).length > 0

/-- `canBeUncompleted()`: status is completed. -/
def canBeUncompleted (t : Todo) : Bool :=
  t.status == .completed

/-- `complete()`: throws when `canBeCompleted()` is false, otherwise sets
status to completed and `updatedAt` to the current time. -/
def complete (now : Nat) (t : Todo) : Except String Unit × Todo :=
  if !t.canBeCompleted then (.error "Todo cannot be completed", t)
  else (.ok (), { t with status := .completed, updatedAt := now })

/-- `uncomplete()`: throws when `canBeUncompleted()` is false, otherwise sets
status to pending and `updatedAt` to the current time. -/
def uncomplete (now : Nat) (t : Todo) : Except String Unit × Todo :=
  if !t.canBeUncompleted then (.error "Todo is not completed", t)
  else (.ok (), { t with status := .pending, updatedAt := now })

/-- `updateTitle(newTitle)`: throws when the trimmed new title is empty,
otherwise stores the trimmed title and refreshes `updatedAt`. -/
def updateTitle (now : Nat) (newTitle : String) (t : Todo) :
    Except String Unit × Todo :=
  if (jsTrim newTitle).length == 0 then (.error "Title cannot be empty", t)
  else (.ok (), { t with title := jsTrim newTitle, updatedAt := now })

/-- `updateDescription(newDescription)`: never throws; stores the trimmed
description (possibly empty) and refreshes `updatedAt`. -/
def updateDescription (now : Nat) (newDescription : String) (t : Todo) : Todo :=
  { t with description := jsTrim newDescription, updatedAt := now }

/-- `isCompleted()`. -/
def isCompleted (t : Todo) : Bool := t.status == .completed

/-- `isPending()`. -/
def isPending (t : Todo) : Bool := t.status == .pending

end Todo

/-! ### JavaScript `Map` semantics -/

/-- `map.has(k)`. -/
def jsHas {α : Type} (m : List (String × α)) (k : String) : Bool :=
  m.any (fun p => p.1 == k)

/-- `map.get(k)`, `none` standing for `undefined`. -/
def jsGet {α : Type} (m : List (String × α)) (k : String) : Option α :=
  (m.find? (fun p => p.1 == k)).map (fun p => p.2)

/-- `map.set(k, v)`: updates the entry in place when the key is present
(keeping its position), appends otherwise. -/
def jsSet {α : Type} (m : List (String × α)) (k : String) (v : α) :
    List (String × α) :=
  if jsHas m k then m.map (fun p => if p.1 == k then (k, v) else p)
  else m ++ [(k, v)]

/-- `map.delete(k)`: removes the entry for `k` when present. -/
def jsDelete {α : Type} (m : List (String × α)) (k : String) :
    List (String × α) :=
  m.filter (fun p => p.1 != k)

/-! ### The in-memory repository -/

/-- The repository's private `Map<string, Todo>`. -/
abbrev TodoStore := List (String × Todo)

namespace InMemoryTodoRepository

/-- `findAll()`: the map's values sorted by descending `createdAt`
(JavaScript `Array.prototype.sort` is stable, as is `List.mergeSort`). -/
def findAll (m : TodoStore) : List Todo :=
  (m.map (fun p => p.2)).mergeSort
    (fun a b => decide (b.createdAt ≤ a.createdAt))

/-- `findById(id)`: the stored entity or `null` (modelled `none`). -/
def findById (m : TodoStore) (id : String) : Option Todo :=
  jsGet m id

/-- `create(todo)`: stores the entity under its id (overwriting silently)
and returns it. -/
def create (m : TodoStore) (todo : Todo) : Todo × TodoStore :=
  (todo, jsSet m todo.id todo)

/-- `update(todo)`: throws when no entity with `todo.id` exists (leaving the
store untouched), otherwise overwrites the stored entity wholesale and
returns it. -/
def update (m : TodoStore) (todo : Todo) : Except String Todo × TodoStore :=
  if !jsHas m todo.id then
    (.error ("Todo with id " ++ todo.id ++ " not found"), m)
  else
    (.ok todo, jsSet m todo.id todo)

/-- `delete(id)`: throws when no entity with `id` exists (leaving the store
untouched), otherwise removes the entry. -/
def delete (m : TodoStore) (id : String) : Except String Unit × TodoStore :=
  if !jsHas m id then
    (.error ("Todo with id " ++ id ++ " not found"), m)
  else
    (.ok (), jsDelete m id)

end InMemoryTodoRepository

/-! ### The dependency invokers -/

/-- A JavaScript runtime value, as far as truthiness is concerned.  The
invokers store `unknown` values, and their lookup guard is `if (!value)`. -/
inductive JSVal where
  | undef
  | jsNull
  | bool (b : Bool)
  | num (n : Int)
  | str (s : String)
  | obj (ref : Nat)
deriving DecidableEq, Repr

/-- JavaScript truthiness. -/
def JSVal.truthy : JSVal → Bool
  | .undef => false
  | .jsNull => false
  | .bool b => b
  | .num n => n != 0
  | .str s => s != ""
  | .obj _ => true

/-- The private `Map<string, unknown>` of a `ServiceInvoker`,
`RepositoryInvoker` or `LogicInvoker` (the three classes are identical up to
renaming). -/
abbrev Invoker := List (String × JSVal)

namespace Invoker

/-- `register(name, x)`: `this.map.set(name, x)`. -/
def register (inv : Invoker) (name : String) (v : JSVal) : Invoker :=
  jsSet inv name v

/-- `invoke(name)`: `const x = this.map.get(name); if (!x) throw ...;
return x`.  `map.get` yields `undefined` for an absent key, and the guard
tests the truthiness of the looked-up value.  The source message reads
`Service <name> not found. Did you register it?` (resp. `Repository`,
`Logic`) with the name quoted; the common prefix is rendered here as
`Dependency` and the quotes are dropped. -/
def invoke (inv : Invoker) (name : String) : Except String JSVal :=
  let v := (jsGet inv name).getD .undef
  if !v.truthy then
    .error ("Dependency " ++ name ++ " not found. Did you register it?")
  else
    .ok v

/-- `has(name)`: `this.map.has(name)`. -/
def has (inv : Invoker) (name : String) : Bool :=
  jsHas inv name

end Invoker

/-! ### Association-list lemmas for the `Map` model -/

theorem jsHas_eq_false_iff {α : Type} (m : List (String × α)) (k : String) :
    jsHas m k = false ↔ ∀ p ∈ m, p.1 ≠ k := by
  simp [jsHas, List.any_eq_true]

theorem find?_key_eq_none_of_not_has {α : Type} {m : List (String × α)}
    {k : String} (h : jsHas m k = false) :
    m.find? (fun p => p.1 == k) = none := by
  rw [jsHas_eq_false_iff] at h
  rw [List.find?_eq_none]
  intro p hp
  simpa using h p hp

theorem jsGet_eq_none_of_not_has {α : Type} {m : List (String × α)}
    {k : String} (h : jsHas m k = false) : jsGet m k = none := by
  rw [jsGet, find?_key_eq_none_of_not_has h, Option.map_none']

theorem find?_map_set_self {α : Type} {m : List (String × α)} {k : String}
    (v : α) (h : jsHas m k = true) :
    (m.map (fun p => if p.1 == k then (k, v) else p)).find?
      (fun p => p.1 == k) = some (k, v) := by
  induction m with
  | nil => simp [jsHas] at h
  | cons p t ih =>
    rw [List.map_cons]
    by_cases hp : p.1 = k
    · rw [List.find?_cons_of_pos]
      · simp [hp]
      · simp [hp]
    · have hp' : (p.1 == k) = false := by simpa using hp
      have ht : jsHas t k = true := by
        simpa [jsHas, hp'] using h
      rw [List.find?_cons_of_neg]
      · exact ih ht
      · simp [hp']

theorem find?_map_set_ne {α : Type} (m : List (String × α)) {k k' : String}
    (v : α) (h : k' ≠ k) :
    (m.map (fun p => if p.1 == k then (k, v) else p)).find?
      (fun p => p.1 == k') = m.find? (fun p => p.1 == k') := by
  induction m with
  | nil => simp
  | cons p t ih =>
    rw [List.map_cons]
    by_cases hp : p.1 = k
    · have hk' : (k == k') = false := by simpa using fun hh => h hh.symm
      have hp' : (p.1 == k') = false := by
        simp [hp]
        intro hh
        exact absurd hh.symm h
      rw [List.find?_cons_of_neg, List.find?_cons_of_neg t]
      · exact ih
      · simp [hp']
      · simp [hp, hk']
    · have hp' : (p.1 == k) = false := by simpa using hp
      by_cases hq : p.1 = k'
      · rw [List.find?_cons_of_pos, List.find?_cons_of_pos t]
        · simp [hp']
        · simp [hq]
        · simp [hq, h]
      · have hq' : (p.1 == k') = false := by simpa using hq
        rw [List.find?_cons_of_neg, List.find?_cons_of_neg t]
        · exact ih
        · simp [hq']
        · simp [hp', hq']

/-- `get` after `set` on the same key returns the value just set. -/
theorem jsGet_jsSet_self {α : Type} (m : List (String × α)) (k : String)
    (v : α) : jsGet (jsSet m k v) k = some v := by
  by_cases h : jsHas m k = true
  · rw [jsSet, if_pos h, jsGet, find?_map_set_self v h, Option.map_some']
  · have h' : jsHas m k = false := by simpa using h
    rw [jsSet, if_neg (by simp [h']), jsGet, List.find?_append,
      find?_key_eq_none_of_not_has h', Option.none_or]
    simp [List.find?]

/-- `set` does not change `get` at any other key. -/
theorem jsGet_jsSet_ne {α : Type} (m : List (String × α)) {k k' : String}
    (v : α) (h : k' ≠ k) : jsGet (jsSet m k v) k' = jsGet m k' := by
  by_cases hm : jsHas m k = true
  · rw [jsSet, if_pos hm, jsGet, find?_map_set_ne m v h, jsGet]
  · have hk : (k == k') = false := by simpa using fun hh => h hh.symm
    have hm' : jsHas m k = false := by simpa using hm
    rw [jsSet, if_neg (by simp [hm']), jsGet, List.find?_append, jsGet]
    have : ([(k, v)].find? (fun p => p.1 == k')) = none := by
      simp [List.find?, hk]
    rw [this, Option.or_none]

/-- `delete` removes the entry for its key. -/
theorem jsGet_jsDelete_self {α : Type} (m : List (String × α)) (k : String) :
    jsGet (jsDelete m k) k = none := by
  rw [jsGet]
  have : (jsDelete m k).find? (fun p => p.1 == k) = none := by
    rw [List.find?_eq_none]
    intro p hp
    have := (List.mem_filter.mp hp).2
    simpa using this
  rw [this, Option.map_none']

/-- `delete` does not change `get` at any other key. -/
theorem jsGet_jsDelete_ne {α : Type} (m : List (String × α)) {k k' : String}
    (h : k' ≠ k) : jsGet (jsDelete m k) k' = jsGet m k' := by
  have key : (jsDelete m k).find? (fun p => p.1 == k')
      = m.find? (fun p => p.1 == k') := by
    induction m with
    | nil => simp [jsDelete]
    | cons p t ih =>
      rw [jsDelete, List.filter_cons]
      by_cases hq : p.1 = k'
      · have hpk : (p.1 != k) = true := by simpa [hq] using h
        rw [if_pos hpk, List.find?_cons_of_pos, List.find?_cons_of_pos t]
        · simp [hq]
        · simp [hq]
      · have hq' : (p.1 == k') = false := by simpa using hq
        rw [List.find?_cons_of_neg t (by simp [hq'])]
        by_cases hpk : p.1 = k
        · rw [if_neg (by simp [hpk])]
          exact ih
        · rw [if_pos (by simpa using hpk), List.find?_cons_of_neg _
            (by simp [hq'])]
          exact ih
  rw [jsGet, key, jsGet]

/-- Sorting a two-element list whose elements are out of order swaps them. -/
theorem mergeSort_pair {α : Type} {le : α → α → Bool} (a b : α)
    (hab : le a b = false) : [a, b].mergeSort le = [b, a] := by
  rw [List.mergeSort]
  simp [List.splitInTwo, List.merge, hab]

theorem string_length_eq_zero (s : String) : s.length = 0 ↔ s = "" := by
  obtain ⟨data⟩ := s
  simp [String.length, String.ext_iff]

/-! ### Sample entities used by the concrete witnesses -/

/-- A pending todo with a non-blank title. -/
def sampleTodo : Todo := ⟨"t1", "Buy milk", "notes", .pending, 100, 100⟩

/-- A second todo created one second after `sampleTodo`. -/
def sampleLater : Todo := ⟨"t2", "Second task", "", .pending, 1100, 1100⟩

/-- A completed todo. -/
def sampleDone : Todo := ⟨"t3", "Shipped", "", .completed, 100, 100⟩

/-! ### Claims about the Todo entity -/

/-- Claim C1: `complete()` fails with the domain-rule error exactly when
`canBeCompleted()` is false — that is, when the status is not pending or the
trimmed title is empty — and leaves the todo unchanged in that case; when
`canBeCompleted()` is true it sets the status to completed and refreshes
`updatedAt` to the current time.  In particular, for a pending todo with a
non-blank title a second `complete()` right after a successful one fails. -/
theorem C1_complete_spec (t : Todo) (now now2 : Nat) :
    (t.canBeCompleted = true ↔ (t.status = .pending ∧ jsTrim t.title ≠ ""))
    ∧ ((Todo.complete now t).1 = .ok () ↔ t.canBeCompleted = true)
    ∧ (t.canBeCompleted = false →
        Todo.complete now t = (.error "Todo cannot be completed", t))
    ∧ (t.canBeCompleted = true →
        Todo.complete now t
          = (.ok (), { t with status := .completed, updatedAt := now }))
    ∧ (t.status = .pending → jsTrim t.title ≠ "" →
        (Todo.complete now t).1 = .ok ()
        ∧ Todo.complete now2 (Todo.complete now t).2
            = (.error "Todo cannot be completed", (Todo.complete now t).2)) := by
  have hchar : t.canBeCompleted = true
      ↔ (t.status = .pending ∧ jsTrim t.title ≠ "") := by
    rw [Todo.canBeCompleted]
    rw [Bool.and_eq_true, beq_iff_eq, decide_eq_true_iff]
    constructor
    · rintro ⟨h1, h2⟩
      refine ⟨h1, fun hembed => ?_⟩
      have := (string_length_eq_zero (jsTrim t.title)).mpr hembed
      omega
    · rintro ⟨h1, h2⟩
      refine ⟨h1, ?_⟩
      have : (jsTrim t.title).length ≠ 0 :=
        fun hlen => h2 ((string_length_eq_zero _).mp hlen)
      omega
  refine ⟨hchar, ?_, ?_, ?_, ?_⟩
  · simp only [Todo.complete]
    by_cases hc : t.canBeCompleted = true <;> simp [hc]
  · intro hc
    simp only [Todo.complete, hc]
    rfl
  · intro hc
    simp only [Todo.complete, hc]
    rfl
  · intro hst htitle
    have hc : t.canBeCompleted = true := hchar.mpr ⟨hst, htitle⟩
    have hstep : Todo.complete now t
        = (.ok (), { t with status := .completed, updatedAt := now }) := by
      simp only [Todo.complete, hc]
      rfl
    have hcant : Todo.canBeCompleted
        { t with status := .completed, updatedAt := now } = false := rfl
    rw [hstep]
    refine ⟨rfl, ?_⟩
    simp only [Todo.complete, hcant]
    rfl

/-- Witness for C1 at a concrete pending todo: the first `complete()`
succeeds and the second fails with the domain-rule error. -/
theorem C1_complete_spec_witness :
    (Todo.complete 200 sampleTodo).1 = .ok ()
    ∧ Todo.complete 300 (Todo.complete 200 sampleTodo).2
        = (.error "Todo cannot be completed", (Todo.complete 200 sampleTodo).2) :=
  (C1_complete_spec sampleTodo 200 300).2.2.2.2 (by decide) (by decide)

/-- Claim C2: `updateTitle` fails with the validation error on blank input
and leaves every field unchanged; on a non-blank input it stores the
trimmed title and refreshes `updatedAt`, which is then later-or-equal to
its prior value provided the clock has not run backwards. -/
theorem C2_updateTitle_spec (t : Todo) (s : String) (now : Nat)
    (hclock : t.updatedAt ≤ now) :
    (jsTrim s = "" →
        Todo.updateTitle now s t = (.error "Title cannot be empty", t))
    ∧ (jsTrim s ≠ "" →
        Todo.updateTitle now s t
          = (.ok (), { t with title := jsTrim s, updatedAt := now })
        ∧ t.updatedAt ≤ (Todo.updateTitle now s t).2.updatedAt) := by
  constructor
  · intro hblank
    have hlen : ((jsTrim s).length == 0) = true := by
      simp [hblank]
    simp only [Todo.updateTitle, hlen]
    rfl
  · intro hnonblank
    have hlen : ((jsTrim s).length == 0) = false := by
      rw [beq_eq_false_iff_ne]
      intro hlen
      exact hnonblank ((string_length_eq_zero _).mp hlen)
    have hstep : Todo.updateTitle now s t
        = (.ok (), { t with title := jsTrim s, updatedAt := now }) := by
      simp only [Todo.updateTitle, hlen]
      rfl
    rw [hstep]
    exact ⟨rfl, hclock⟩

/-- Witness for C2: blank input fails and leaves the sample todo unchanged;
a padded input stores the trimmed title with the new timestamp. -/
theorem C2_updateTitle_spec_witness :
    Todo.updateTitle 200 "   " sampleTodo
      = (.error "Title cannot be empty", sampleTodo)
    ∧ Todo.updateTitle 200 " New title " sampleTodo
        = (.ok (), { sampleTodo with title := jsTrim " New title ", updatedAt := 200 }) :=
  ⟨(C2_updateTitle_spec sampleTodo "   " 200 (by decide)).1 (by decide),
   ((C2_updateTitle_spec sampleTodo " New title " 200 (by decide)).2
      (by decide)).1⟩

/-- Claim C6: strict `uncomplete()` — on any todo whose status is not
completed it fails with the domain-rule error and leaves the todo
unchanged; on a completed todo it succeeds, sets the status to pending and
refreshes `updatedAt`. -/
theorem C6_uncomplete_spec (t : Todo) (now : Nat) :
    (t.status ≠ .completed →
        Todo.uncomplete now t = (.error "Todo is not completed", t))
    ∧ (t.status = .completed →
        Todo.uncomplete now t
          = (.ok (), { t with status := .pending, updatedAt := now })) := by
  constructor
  · intro hne
    have : t.canBeUncompleted = false := by
      rw [Todo.canBeUncompleted, beq_eq_false_iff_ne]
      exact hne
    rw [Todo.uncomplete, this]
    rfl
  · intro heq
    have : t.canBeUncompleted = true := by
      rw [Todo.canBeUncompleted, beq_iff_eq]
      exact heq
    rw [Todo.uncomplete, this]
    rfl

/-- Witness for C6: `uncomplete()` fails on a pending todo and succeeds on a
completed one. -/
theorem C6_uncomplete_spec_witness :
    Todo.uncomplete 200 sampleTodo
      = (.error "Todo is not completed", sampleTodo)
    ∧ Todo.uncomplete 200 sampleDone
        = (.ok (), { sampleDone with status := .pending, updatedAt := 200 }) :=
  ⟨(C6_uncomplete_spec sampleTodo 200).1 (by decide),
   (C6_uncomplete_spec sampleDone 200).2 (by decide)⟩

/-- Claim C7: `updateDescription` never fails; it stores the trimmed
description (possibly empty) and refreshes `updatedAt`, leaving every other
field unchanged.  (In the embedding the operation is a total function, which
is exactly the "never fails" contract.) -/
theorem C7_updateDescription_spec (t : Todo) (s : String) (now : Nat) :
    (Todo.updateDescription now s t).description = jsTrim s
    ∧ (Todo.updateDescription now s t).updatedAt = now
    ∧ (Todo.updateDescription now s t).id = t.id
    ∧ (Todo.updateDescription now s t).title = t.title
    ∧ (Todo.updateDescription now s t).status = t.status
    ∧ (Todo.updateDescription now s t).createdAt = t.createdAt :=
  ⟨rfl, rfl, rfl, rfl, rfl, rfl⟩

/-- Counterexample for claim C8 as stated: the constructor validates
nothing, so an entity constructed with `createdAt = 1` and `updatedAt = 0`
violates `updatedAt ≥ createdAt` even though it was obtained through a
public operation (construction). -/
theorem C8_counterexample :
    ¬ (Todo.mk "t0" "Task" "" .pending 1 0).createdAt
        ≤ (Todo.mk "t0" "Task" "" .pending 1 0).updatedAt := by
  decide

/-- Claim C8 (amended): `updatedAt ≥ createdAt` is preserved by every entity
operation provided it held before and the current clock reading is not
before `createdAt`; a failed operation leaves the entity — in particular
`updatedAt` — unchanged, and a successful mutating operation sets
`updatedAt` to the current time.  (It does not hold unconditionally, since
the constructor accepts arbitrary timestamps: see the counterexample.) -/
theorem C8_updatedAt_invariant (t : Todo) (now : Nat) (s d : String)
    (hinv : t.createdAt ≤ t.updatedAt) (hclock : t.createdAt ≤ now) :
    ((Todo.complete now t).2.createdAt ≤ (Todo.complete now t).2.updatedAt)
    ∧ ((Todo.uncomplete now t).2.createdAt
        ≤ (Todo.uncomplete now t).2.updatedAt)
    ∧ ((Todo.updateTitle now s t).2.createdAt
        ≤ (Todo.updateTitle now s t).2.updatedAt)
    ∧ ((Todo.updateDescription now d t).createdAt
        ≤ (Todo.updateDescription now d t).updatedAt)
    ∧ ((Todo.complete now t).1.isOk = false → (Todo.complete now t).2 = t)
    ∧ ((Todo.uncomplete now t).1.isOk = false
        → (Todo.uncomplete now t).2 = t)
    ∧ ((Todo.updateTitle now s t).1.isOk = false
        → (Todo.updateTitle now s t).2 = t)
    ∧ ((Todo.complete now t).1.isOk = true
        → (Todo.complete now t).2.updatedAt = now)
    ∧ ((Todo.uncomplete now t).1.isOk = true
        → (Todo.uncomplete now t).2.updatedAt = now)
    ∧ ((Todo.updateTitle now s t).1.isOk = true
        → (Todo.updateTitle now s t).2.updatedAt = now)
    ∧ (Todo.updateDescription now d t).updatedAt = now := by
  simp only [Todo.complete, Todo.uncomplete, Todo.updateTitle,
    Todo.updateDescription]
  by_cases h1 : t.canBeCompleted = true <;>
    by_cases h2 : t.canBeUncompleted = true <;>
      by_cases h3 : ((jsTrim s).length == 0) = true <;>
        simp [h1, h2, h3, Except.isOk, Except.toBool, hinv, hclock]

/-- Witness for the amended C8 at a concrete well-formed todo: after a
successful `complete()` the invariant still holds. -/
theorem C8_updatedAt_invariant_witness :
    (Todo.complete 200 sampleTodo).2.createdAt
      ≤ (Todo.complete 200 sampleTodo).2.updatedAt :=
  (C8_updatedAt_invariant sampleTodo 200 "x" "y" (by decide) (by decide)).1

/-! ### Claims about the in-memory repository -/

/-- Claim C3: `repo.create(t)` followed by `repo.findById(t.id)` returns a
todo equal in all fields to `t` (structural equality of the `Todo` record is
field-wise equality). -/
theorem C3_create_findById_roundtrip (m : TodoStore) (t : Todo) :
    InMemoryTodoRepository.findById
      (InMemoryTodoRepository.create m t).2 t.id = some t := by
  simp only [InMemoryTodoRepository.create, InMemoryTodoRepository.findById]
  exact jsGet_jsSet_self m t.id t

/-- Claim C4: on an absent id, `update` and `delete` fail with the
not-found error and return the store completely unchanged; on a present id,
`update` overwrites the stored entity wholesale with the supplied todo and
returns it, and `delete` removes the entry. -/
theorem C4_update_delete_spec (m : TodoStore) (todo : Todo) (id : String) :
    (jsHas m todo.id = false →
        InMemoryTodoRepository.update m todo
          = (.error ("Todo with id " ++ todo.id ++ " not found"), m))
    ∧ (jsHas m id = false →
        InMemoryTodoRepository.delete m id
          = (.error ("Todo with id " ++ id ++ " not found"), m))
    ∧ (jsHas m todo.id = true →
        InMemoryTodoRepository.update m todo
          = (.ok todo, jsSet m todo.id todo)
        ∧ InMemoryTodoRepository.findById
            (InMemoryTodoRepository.update m todo).2 todo.id = some todo)
    ∧ (jsHas m id = true →
        (InMemoryTodoRepository.delete m id).1 = .ok ()
        ∧ InMemoryTodoRepository.findById
            (InMemoryTodoRepository.delete m id).2 id = none) := by
  refine ⟨?_, ?_, ?_, ?_⟩
  · intro h
    simp only [InMemoryTodoRepository.update, h]
    rfl
  · intro h
    simp only [InMemoryTodoRepository.delete, h]
    rfl
  · intro h
    have hstep : InMemoryTodoRepository.update m todo
        = (.ok todo, jsSet m todo.id todo) := by
      simp only [InMemoryTodoRepository.update, h]
      rfl
    refine ⟨hstep, ?_⟩
    rw [hstep]
    exact jsGet_jsSet_self m todo.id todo
  · intro h
    have hstep : InMemoryTodoRepository.delete m id
        = (.ok (), jsDelete m id) := by
      simp only [InMemoryTodoRepository.delete, h]
      rfl
    rw [hstep]
    exact ⟨rfl, jsGet_jsDelete_self m id⟩

/-- Witness for C4: deleting a missing id fails with the not-found error
and leaves the concrete one-entry store untouched; deleting a present id
removes it. -/
theorem C4_update_delete_spec_witness :
    InMemoryTodoRepository.delete [("t1", sampleTodo)] "missing"
      = (.error ("Todo with id " ++ "missing" ++ " not found"),
          [("t1", sampleTodo)])
    ∧ InMemoryTodoRepository.findById
        (InMemoryTodoRepository.delete [("t1", sampleTodo)] "t1").2 "t1"
      = none :=
  ⟨(C4_update_delete_spec [("t1", sampleTodo)] sampleTodo "missing").2.1
      (by decide),
   ((C4_update_delete_spec [("t1", sampleTodo)] sampleTodo "t1").2.2.2
      (by decide)).2⟩

/-- Claim C5: `findAll` returns every stored entity exactly once (it is a
permutation of the store's values), sorted by descending `createdAt`; in
particular with two stored todos created at `T0` and `T0 + 1s` the newer
one comes first. -/
theorem C5_findAll_spec (m : TodoStore) (k0 k1 : String) (a b : Todo)
    (T0 : Nat) (ha : a.createdAt = T0) (hb : b.createdAt = T0 + 1000) :
    (InMemoryTodoRepository.findAll m).Perm (m.map (fun p => p.2))
    ∧ (InMemoryTodoRepository.findAll m).Pairwise
        (fun x y => y.createdAt ≤ x.createdAt)
    ∧ InMemoryTodoRepository.findAll [(k0, a), (k1, b)] = [b, a] := by
  refine ⟨?_, ?_, ?_⟩
  · exact List.mergeSort_perm (m.map (fun p => p.2)) _
  · have h := @List.sorted_mergeSort Todo
      (fun x y : Todo => decide (y.createdAt ≤ x.createdAt))
      (fun x y z hxy hyz => by
        simp only [decide_eq_true_iff] at hxy hyz ⊢
        omega)
      (fun x y => by
        simp only [Bool.or_eq_true, decide_eq_true_iff]
        omega)
      (m.map (fun p => p.2))
    refine List.Pairwise.imp ?_ h
    intro x y hxy
    simpa using hxy
  · simp only [InMemoryTodoRepository.findAll, List.map_cons, List.map_nil]
    have hab : decide (b.createdAt ≤ a.createdAt) = false := by
      simp [ha, hb]
    exact mergeSort_pair a b hab

/-- Witness for C5 at a concrete two-entry store: the todo created one
second later comes first. -/
theorem C5_findAll_spec_witness :
    InMemoryTodoRepository.findAll [("t1", sampleTodo), ("t2", sampleLater)]
      = [sampleLater, sampleTodo] :=
  (C5_findAll_spec [] "t1" "t2" sampleTodo sampleLater 100
    (by decide) (by decide)).2.2

/-- Claim C9 (frame condition): a `create`, `update` or `delete` leaves the
mapping of every other stored id unchanged — `delete` removes exactly the
entry of its id and `create`/`update` change at most the entry keyed by
`todo.id`. -/
theorem C9_frame (m : TodoStore) (todo : Todo) (i j : String)
    (hj : j ≠ todo.id) (hij : j ≠ i) :
    InMemoryTodoRepository.findById
        (InMemoryTodoRepository.create m todo).2 j
      = InMemoryTodoRepository.findById m j
    ∧ InMemoryTodoRepository.findById
        (InMemoryTodoRepository.update m todo).2 j
      = InMemoryTodoRepository.findById m j
    ∧ InMemoryTodoRepository.findById
        (InMemoryTodoRepository.delete m i).2 j
      = InMemoryTodoRepository.findById m j := by
  refine ⟨?_, ?_, ?_⟩
  · simp only [InMemoryTodoRepository.create, InMemoryTodoRepository.findById]
    exact jsGet_jsSet_ne m todo hj
  · by_cases h : jsHas m todo.id = true
    · simp only [InMemoryTodoRepository.update, h, Bool.not_true,
        InMemoryTodoRepository.findById]
      exact jsGet_jsSet_ne m todo hj
    · have h' : jsHas m todo.id = false := by simpa using h
      simp only [InMemoryTodoRepository.update, h',
        InMemoryTodoRepository.findById]
      rfl
  · by_cases h : jsHas m i = true
    · simp only [InMemoryTodoRepository.delete, h, Bool.not_true,
        InMemoryTodoRepository.findById]
      exact jsGet_jsDelete_ne m hij
    · have h' : jsHas m i = false := by simpa using h
      simp only [InMemoryTodoRepository.delete, h',
        InMemoryTodoRepository.findById]
      rfl

/-- Witness for C9 at a concrete two-entry store: deleting `t1` leaves the
mapping of `t2` untouched. -/
theorem C9_frame_witness :
    InMemoryTodoRepository.findById
        (InMemoryTodoRepository.delete
          [("t1", sampleTodo), ("t2", sampleLater)] "t1").2 "t2"
      = InMemoryTodoRepository.findById
          [("t1", sampleTodo), ("t2", sampleLater)] "t2" :=
  (C9_frame [("t1", sampleTodo), ("t2", sampleLater)] sampleTodo "t1" "t2"
    (by decide) (by decide)).2.2

/-! ### Claims about the dependency invokers -/

/-- Counterexample for claim C10 as stated: the invokers guard the lookup
with `if (!value)`, testing the truthiness of the looked-up value rather
than key presence, so after registering the (falsy) value `0` under a name,
`invoke` on that very name still throws although an instance is
registered. -/
theorem C10_counterexample :
    Invoker.has (Invoker.register [] "a" (.num 0)) "a" = true
    ∧ Invoker.invoke (Invoker.register [] "a" (.num 0)) "a"
        = .error ("Dependency " ++ "a" ++ " not found. Did you register it?") := by
  constructor
  · rfl
  · rfl

/-- Claim C10 (amended): `invoke(name)` returns the instance most recently
registered under `name` whenever that instance is truthy (every actual
service/repository/logic object is), and it throws exactly when the lookup
yields no value or a falsy one: for an unregistered name it always throws,
and `register` followed by `invoke` round-trips for every truthy
instance. -/
theorem C10_invoker_spec (inv : Invoker) (name : String) (v : JSVal) :
    (v.truthy = true →
        Invoker.invoke (Invoker.register inv name v) name = .ok v)
    ∧ (v.truthy = false →
        Invoker.invoke (Invoker.register inv name v) name
          = .error ("Dependency " ++ name
              ++ " not found. Did you register it?"))
    ∧ (jsGet inv name = none →
        Invoker.invoke inv name
          = .error ("Dependency " ++ name
              ++ " not found. Did you register it?"))
    ∧ (∀ w, jsGet inv name = some w → w.truthy = true →
        Invoker.invoke inv name = .ok w) := by
  have hreg : jsGet (Invoker.register inv name v) name = some v :=
    jsGet_jsSet_self inv name v
  refine ⟨?_, ?_, ?_, ?_⟩
  · intro htrue
    simp only [Invoker.invoke, hreg, Option.getD_some, htrue]
    rfl
  · intro hfalse
    simp only [Invoker.invoke, hreg, Option.getD_some, hfalse]
    rfl
  · intro hnone
    simp only [Invoker.invoke, hnone, Option.getD_none]
    rfl
  · intro w hw htrue
    simp only [Invoker.invoke, hw, Option.getD_some, htrue]
    rfl

/-- Witness for the amended C10: registering an object instance and
invoking it round-trips. -/
theorem C10_invoker_spec_witness :
    Invoker.invoke (Invoker.register [] "todoService" (.obj 1)) "todoService"
      = .ok (.obj 1) :=
  (C10_invoker_spec [] "todoService" (.obj 1)).1 (by decide)

end CleanTodolist
